import Mathlib

/-!
Shallow embedding of kcp's permission-claim matching engine and the
virtual-workspace composition layer, together with proofs of the behavioural
properties stated in the specification.

The `Merge` and admission-options wiring are translated directly from the
`options` package sources.  The claim-matching predicate and the scoped-view
enforcement (create/list/delete/delete-collection) are exercised only through
end-to-end tests in the available sources, so those definitions are modelled
from the specification (sections 3 and 4), as indicated by their doc comments.
-/

namespace KcpClaims

/-- A Kubernetes group-resource pair; the empty group denotes the core API
group and is compared exactly, never as a wildcard. -/
structure GroupResource where
  group : String
  resource : String
deriving DecidableEq, Repr

/-- Modelled from the spec: a `ClaimSelector` is a single name/namespace
matching rule; `ns` stands for the namespace field.  The implementation of
the selector data type is not among the available sources. -/
structure ClaimSelector where
  name : String
  ns : String
deriving DecidableEq, Repr

/-- Modelled from the spec: a `PermissionClaim` carries a group-resource, an
`all` flag and an ordered list of selectors. -/
structure PermissionClaim where
  groupResource : GroupResource
  all : Bool
  selectors : List ClaimSelector
deriving DecidableEq, Repr

/-- Consumer-side acceptance state of a claim. -/
inductive ClaimState where
  | Accepted
  | Rejected
  | Unknown
deriving DecidableEq, Repr

/-- Modelled from the spec: an `AcceptedClaim` pairs a claim with its
acceptance state; only `Accepted` claims participate in enforcement. -/
structure AcceptedClaim where
  claim : PermissionClaim
  state : ClaimState
deriving DecidableEq, Repr

/-- The identity of a candidate object presented to the matcher. -/
structure Candidate where
  name : String
  ns : String
  groupResource : GroupResource
deriving DecidableEq, Repr

/-- Modelled from the spec: a selector field matches a candidate field when it
is empty, the literal star, or exactly equal to the candidate field. -/
def fieldMatches (sel cand : String) : Bool :=
  sel == "" || sel == "*" || sel == cand

/-- Modelled from the spec: a selector matches a candidate when both its name
and its namespace field match (AND of fields). -/
def selectorMatches (s : ClaimSelector) (c : Candidate) : Bool :=
  fieldMatches s.name c.name && fieldMatches s.ns c.ns

/-- Modelled from the spec: a single accepted claim grants access to a
candidate when it is `Accepted`, covers the candidate's group-resource, and
either has `all` set or one of its selectors matches (OR of selectors). -/
def claimMatches (g : AcceptedClaim) (c : Candidate) : Bool :=
  g.state == ClaimState.Accepted
    && g.claim.groupResource == c.groupResource
    && (g.claim.all || g.claim.selectors.any (fun s => selectorMatches s c))

/-- Modelled from the spec: the ClaimMatcher predicate.  Claims are
OR-combined across the whole grant set; an empty grant set yields `false`.
The matcher implementation itself is not among the available sources; this
definition follows the algorithm of specification section 4.1. -/
def Matches (c : Candidate) (grants : List AcceptedClaim) : Bool :=
  grants.any (fun g => claimMatches g c)

/-- The propositional form of a selector match, used to state the
specification-level characterisation of the matcher. -/
def SelectorMatchesProp (s : ClaimSelector) (c : Candidate) : Prop :=
  (s.name = "" ∨ s.name = "*" ∨ s.name = c.name)
    ∧ (s.ns = "" ∨ s.ns = "*" ∨ s.ns = c.ns)

/-- An object held by the backing accessor, identified by name and
namespace. -/
structure StoredObject where
  name : String
  ns : String
deriving DecidableEq, Repr

/-- The backing accessor's contents for one group-resource. -/
abbrev Store := List StoredObject

/-- Errors surfaced by the scoped view. -/
inductive ViewError where
  | Forbidden
  | NotFound
deriving DecidableEq, Repr

/-- The matcher candidate corresponding to a stored object. -/
def candidateOf (gr : GroupResource) (o : StoredObject) : Candidate :=
  { name := o.name, ns := o.ns, groupResource := gr }

/-- Modelled from the spec: scoped-view Create evaluates the ClaimMatcher
against the object-to-be-created before delegating; on no-match it fails
Forbidden and leaves the backing store untouched.  The enforcer
implementation is not among the available sources; this follows
specification section 4.2. -/
def enforcedCreate (grants : List AcceptedClaim) (gr : GroupResource)
    (obj : StoredObject) (store : Store) : Except ViewError Unit × Store :=
  if Matches (candidateOf gr obj) grants then
    (Except.ok (), store ++ [obj])
  else
    (Except.error ViewError.Forbidden, store)

/-- The unscoped (native) listing of a namespace. -/
def nativeList (nsp : String) (store : Store) : List StoredObject :=
  store.filter (fun o => o.ns == nsp)

/-- Modelled from the spec: scoped-view List fetches the full candidate set
from the backing accessor and keeps only claim-matching objects. -/
def enforcedList (grants : List AcceptedClaim) (gr : GroupResource)
    (nsp : String) (store : Store) : List StoredObject :=
  (nativeList nsp store).filter (fun o => Matches (candidateOf gr o) grants)

/-- Modelled from the spec: scoped-view Delete resolves the existing object,
returns NotFound when absent, fails Forbidden without touching the store when
the object does not match the claim, and otherwise deletes it. -/
def enforcedDelete (grants : List AcceptedClaim) (gr : GroupResource)
    (nsp objName : String) (store : Store) : Except ViewError Unit × Store :=
  match store.find? (fun o => o.name == objName && o.ns == nsp) with
  | none => (Except.error ViewError.NotFound, store)
  | some o =>
    if Matches (candidateOf gr o) grants then
      (Except.ok (), store.filter (fun x => !(x.name == objName && x.ns == nsp)))
    else
      (Except.error ViewError.Forbidden, store)

/-- Modelled from the spec: scoped-view DeleteCollection delegates only the
claim-matching subset of the namespace; non-matching objects are left
untouched and reported as no error (the operation is total). -/
def enforcedDeleteCollection (grants : List AcceptedClaim) (gr : GroupResource)
    (nsp : String) (store : Store) : Store :=
  store.filter (fun o => !(o.ns == nsp && Matches (candidateOf gr o) grants))

/-- The core-group configmaps group-resource used throughout the test
scenarios. -/
def configmapsGR : GroupResource :=
  { group := "", resource := "configmaps" }

/-- The accepted grant of test scenario A: configmaps restricted to any name
in namespace consumer-ns-1. -/
def scenarioAGrants : List AcceptedClaim :=
  [{ claim := { groupResource := configmapsGR, all := false,
                selectors := [{ name := "*", ns := "consumer-ns-1" }] },
     state := ClaimState.Accepted }]

/-- The accepted grant of test scenario C: configmaps restricted to the name
unique in namespace consumer-ns-1. -/
def scenarioCGrants : List AcceptedClaim :=
  [{ claim := { groupResource := configmapsGR, all := false,
                selectors := [{ name := "unique", ns := "consumer-ns-1" }] },
     state := ClaimState.Accepted }]

/-- The backing contents of consumer-ns-1 before the scenario-C create: the
configmap created under the earlier wide claim plus the namespace's root
certificate configmap. -/
def scenarioCBase : Store :=
  [{ name := "confmap1", ns := "consumer-ns-1" },
   { name := "kube-root-ca.crt", ns := "consumer-ns-1" }]

/-- The store of the delete scenario: consumer-ns-1 still holds confmap1,
which the narrowed claim no longer covers. -/
def scenarioDStore : Store :=
  [{ name := "confmap1", ns := "consumer-ns-1" }]

/-- An accepted grant whose single selector has an empty name field and a
concrete namespace, as in the narrow-claim test fixture. -/
def emptyNameNs1Grants : List AcceptedClaim :=
  [{ claim := { groupResource := configmapsGR, all := false,
                selectors := [{ name := "", ns := "consumer-ns-1" }] },
     state := ClaimState.Accepted }]

/-- An accepted grant whose single selector is wildcard in both fields. -/
def starStarGrants : List AcceptedClaim :=
  [{ claim := { groupResource := configmapsGR, all := false,
                selectors := [{ name := "*", ns := "*" }] },
     state := ClaimState.Accepted }]

/-- An accepted grant with the all flag set and a deliberately non-matching
selector list, exercising that selectors are ignored when all is set. -/
def allFlagGrants : List AcceptedClaim :=
  [{ claim := { groupResource := configmapsGR, all := true,
                selectors := [{ name := "zzz", ns := "yyy" }] },
     state := ClaimState.Accepted }]

end KcpClaims

namespace KcpOptions

/-- A named virtual workspace; the `workspace` payload stands in for the
opaque `VirtualWorkspace` interface value carried alongside the name. -/
structure NamedVirtualWorkspace where
  Name : String
  workspace : Nat
deriving DecidableEq, Repr

/-- The error message produced for a duplicate virtual-workspace name. -/
def dupMsg (n : String) : String :=
  "duplicate virtual workspace \"" ++ n ++ "\""

/-- The inner loop of `Merge`: walk one set, failing on a name already seen
and recording each new name, returning the extended seen-set. -/
def checkSet (seen : List String) :
    List NamedVirtualWorkspace → Except String (List String)
  | [] => Except.ok seen
  | vw :: rest =>
    if seen.contains vw.Name then
      Except.error (dupMsg vw.Name)
    else
      checkSet (vw.Name :: seen) rest

/-- The outer loop of `Merge`: for each set, first check all of its names
against the seen-set, then append the whole set to the accumulator. -/
def mergeGo (workspaces : List NamedVirtualWorkspace) (seen : List String) :
    List (List NamedVirtualWorkspace) → Except String (List NamedVirtualWorkspace)
  | [] => Except.ok workspaces
  | set :: rest =>
    match checkSet seen set with
    | Except.error e => Except.error e
    | Except.ok seen2 => mergeGo (workspaces ++ set) seen2 rest

/-- `Merge` from the options package: concatenate the given sets of named
virtual workspaces, failing with a duplicate-name error (and no list) as soon
as a name repeats within or across sets. -/
def Merge (sets : List (List NamedVirtualWorkspace)) :
    Except String (List NamedVirtualWorkspace) :=
  mergeGo [] [] sets

/-- The names of all entries of all sets, in traversal order. -/
def workspaceNames (sets : List (List NamedVirtualWorkspace)) : List String :=
  sets.flatten.map (fun vw => vw.Name)

/-- The first name that repeats while scanning a name list left to right
against an explicit seen-set; this mirrors the control flow of `checkSet` and
`mergeGo` on bare names and drives the correctness proofs of `Merge`. -/
def firstDup (seen : List String) : List String → Option String
  | [] => none
  | n :: rest => if seen.contains n then some n else firstDup (n :: seen) rest

/-- The admission fields of the options object that `NewOptions` fills in. -/
structure AdmissionOptions where
  RecommendedPluginOrder : List String
  DisablePlugins : List String
deriving DecidableEq, Repr

/-- The admission wiring of `NewOptions`, translated statement by statement:
the recommended order is set to the virtual plugin alone, then the default
registered plugins are appended, and the default plugins are disabled.  The
default-plugin list and the virtual plugin name come from external
registries and are taken as parameters. -/
def newOptionsAdmission (virtualPluginName : String)
    (defaultPlugins : List String) : AdmissionOptions :=
  let o : AdmissionOptions := { RecommendedPluginOrder := [], DisablePlugins := [] }
  let o := { o with RecommendedPluginOrder := [virtualPluginName] }
  let o := { o with RecommendedPluginOrder := o.RecommendedPluginOrder ++ defaultPlugins }
  let o := { o with DisablePlugins := defaultPlugins }
  o

/-- Modelled from the spec: the generic apiserver enables exactly the
recommended plugins that are not disabled (the admission chain itself is an
external collaborator). -/
def enabledPlugins (o : AdmissionOptions) : List String :=
  o.RecommendedPluginOrder.filter (fun p => !(o.DisablePlugins.contains p))

end KcpOptions

namespace KcpClaims

/-- Specification-level characterisation of the matcher: `Matches` holds
exactly when some accepted claim of the candidate's group-resource either has
the all flag or has a selector matching both fields. -/
theorem matches_characterisation (c : Candidate) (grants : List AcceptedClaim) :
    Matches c grants = true ↔
      ∃ g ∈ grants, g.state = ClaimState.Accepted
        ∧ g.claim.groupResource = c.groupResource
        ∧ (g.claim.all = true ∨ ∃ s ∈ g.claim.selectors, SelectorMatchesProp s c) := by
  simp only [Matches, claimMatches, selectorMatches, fieldMatches, SelectorMatchesProp,
    List.any_eq_true, Bool.and_eq_true, Bool.or_eq_true, beq_iff_eq, or_assoc, and_assoc]

/-- C1: `Matches` returns true iff the grant set contains an accepted claim of
the candidate's group-resource that either has `all` set or has a selector
whose name field is empty, star, or the candidate's name, and whose namespace
field is empty, star, or the candidate's namespace; claims and selectors are
OR-combined, and any grant set (in particular an empty one) yields a plain
boolean, never an error. -/
theorem claim_matcher_matches_iff (c : Candidate) (grants : List AcceptedClaim) :
    Matches c grants = true ↔
      ∃ g ∈ grants, g.state = ClaimState.Accepted
        ∧ g.claim.groupResource = c.groupResource
        ∧ (g.claim.all = true ∨ ∃ s ∈ g.claim.selectors,
            (s.name = "" ∨ s.name = "*" ∨ s.name = c.name)
              ∧ (s.ns = "" ∨ s.ns = "*" ∨ s.ns = c.ns)) :=
  matches_characterisation c grants

/-- C2: a claim with the all flag set matches every object of its
group-resource regardless of the contents of its selector list. -/
theorem all_claim_matches_regardless_of_selectors
    (grants : List AcceptedClaim) (g : AcceptedClaim) (c : Candidate)
    (hg : g ∈ grants) (hst : g.state = ClaimState.Accepted)
    (hall : g.claim.all = true) (hgr : g.claim.groupResource = c.groupResource) :
    Matches c grants = true :=
  (matches_characterisation c grants).mpr ⟨g, hg, hst, hgr, Or.inl hall⟩

/-- Witness for C2 at a concrete grant whose selector list matches nothing. -/
theorem all_claim_matches_regardless_of_selectors_witness :
    Matches { name := "anything", ns := "anywhere", groupResource := configmapsGR }
      allFlagGrants = true :=
  all_claim_matches_regardless_of_selectors allFlagGrants
    { claim := { groupResource := configmapsGR, all := true,
                 selectors := [{ name := "zzz", ns := "yyy" }] },
      state := ClaimState.Accepted }
    { name := "anything", ns := "anywhere", groupResource := configmapsGR }
    (List.mem_singleton.mpr rfl) rfl rfl rfl

/-- C8: `Matches` is a pure function of the candidate and the grant set, so
two evaluations on equal inputs always agree. -/
theorem matches_deterministic (c c2 : Candidate) (grants grants2 : List AcceptedClaim)
    (hc : c = c2) (hg : grants = grants2) :
    Matches c grants = Matches c2 grants2 := by
  rw [hc, hg]

/-- Witness for C8 at a concrete candidate and grant set. -/
theorem matches_deterministic_witness :
    Matches { name := "confmap1", ns := "consumer-ns-1", groupResource := configmapsGR }
        scenarioAGrants
      = Matches { name := "confmap1", ns := "consumer-ns-1", groupResource := configmapsGR }
        scenarioAGrants :=
  matches_deterministic
    { name := "confmap1", ns := "consumer-ns-1", groupResource := configmapsGR }
    { name := "confmap1", ns := "consumer-ns-1", groupResource := configmapsGR }
    scenarioAGrants scenarioAGrants rfl rfl

end KcpClaims

namespace KcpClaims

/-- C3: under the accepted scenario-A claim (any name, namespace
consumer-ns-1), the scoped-view create of confmap1 in consumer-ns-1 succeeds
and writes the object through, while a create in consumer-ns-2 fails
Forbidden and leaves the backing store exactly as it was, whatever it
contained. -/
theorem scenarioA_create_gating :
    (enforcedCreate scenarioAGrants configmapsGR
        { name := "confmap1", ns := "consumer-ns-1" } []
      = (Except.ok (), [{ name := "confmap1", ns := "consumer-ns-1" }]))
    ∧ ∀ store : Store,
        enforcedCreate scenarioAGrants configmapsGR
            { name := "confmap1", ns := "consumer-ns-2" } store
          = (Except.error ViewError.Forbidden, store) := by
  constructor
  · rfl
  · intro store
    have h : Matches
        (candidateOf configmapsGR { name := "confmap1", ns := "consumer-ns-2" })
        scenarioAGrants = false := by decide
    simp [enforcedCreate, h]

/-- C4: under the accepted scenario-C claim (name unique, namespace
consumer-ns-1), creating unique succeeds, creating not-unique fails Forbidden
with the store untouched, and the scoped list of consumer-ns-1 returns
exactly the single item unique although the underlying namespace holds three
configmaps in total. -/
theorem scenarioC_create_and_filtered_list :
    (enforcedCreate scenarioCGrants configmapsGR
        { name := "unique", ns := "consumer-ns-1" } scenarioCBase
      = (Except.ok (),
          scenarioCBase ++ [{ name := "unique", ns := "consumer-ns-1" }]))
    ∧ (∀ store : Store,
        enforcedCreate scenarioCGrants configmapsGR
            { name := "not-unique", ns := "consumer-ns-1" } store
          = (Except.error ViewError.Forbidden, store))
    ∧ enforcedList scenarioCGrants configmapsGR "consumer-ns-1"
        (scenarioCBase ++ [{ name := "unique", ns := "consumer-ns-1" }])
      = [{ name := "unique", ns := "consumer-ns-1" }]
    ∧ (nativeList "consumer-ns-1"
        (scenarioCBase ++ [{ name := "unique", ns := "consumer-ns-1" }])).length = 3 := by
  refine ⟨rfl, ?_, rfl, rfl⟩
  intro store
  have h : Matches
      (candidateOf configmapsGR { name := "not-unique", ns := "consumer-ns-1" })
      scenarioCGrants = false := by decide
  simp [enforcedCreate, h]

/-- C5: the scoped view deletes only claim-matching objects: deleting an
existing non-matching object by name fails Forbidden and the native listing
of its namespace is unchanged, and DeleteCollection keeps every non-matching
object, removes only objects of the namespace that match, and reports no
error for the objects it skips (it is a total operation on the store). -/
theorem scoped_delete_respects_claims
    (grants : List AcceptedClaim) (gr : GroupResource) (nsp objName : String)
    (store : Store) (o : StoredObject)
    (hfind : store.find? (fun x => x.name == objName && x.ns == nsp) = some o)
    (hnm : Matches (candidateOf gr o) grants = false) :
    (enforcedDelete grants gr nsp objName store
        = (Except.error ViewError.Forbidden, store))
    ∧ o ∈ nativeList o.ns (enforcedDelete grants gr nsp objName store).2
    ∧ (∀ x ∈ store, ¬(x.ns = nsp ∧ Matches (candidateOf gr x) grants = true) →
        x ∈ enforcedDeleteCollection grants gr nsp store)
    ∧ (∀ x ∈ enforcedDeleteCollection grants gr nsp store,
        x ∈ store ∧ ¬(x.ns = nsp ∧ Matches (candidateOf gr x) grants = true)) := by
  have hdel : enforcedDelete grants gr nsp objName store
      = (Except.error ViewError.Forbidden, store) := by
    simp [enforcedDelete, hfind, hnm]
  have hmem : o ∈ store := List.mem_of_find?_eq_some hfind
  refine ⟨hdel, ?_, ?_, ?_⟩
  · rw [hdel]
    exact List.mem_filter.mpr ⟨hmem, by simp⟩
  · intro x hx hnx
    refine List.mem_filter.mpr ⟨hx, ?_⟩
    simp only [Bool.not_eq_eq_eq_not, Bool.not_true, Bool.and_eq_false_iff] at hnx ⊢
    by_cases hns : x.ns = nsp
    · right
      rcases Bool.eq_false_or_eq_true (Matches (candidateOf gr x) grants) with ht | hf
      · exact absurd ⟨hns, ht⟩ hnx
      · exact hf
    · left
      simp [hns]
  · intro x hx
    have hx2 := List.mem_filter.mp hx
    refine ⟨hx2.1, ?_⟩
    rintro ⟨hns, hmt⟩
    have := hx2.2
    simp [hns, hmt] at this

/-- Witness for C5: under the narrowed unique-in-consumer-ns-1 claim, the
scoped delete of the existing non-matching confmap1 fails Forbidden and
leaves the store untouched. -/
theorem scoped_delete_respects_claims_witness :
    enforcedDelete scenarioCGrants configmapsGR "consumer-ns-1" "confmap1"
        scenarioDStore
      = (Except.error ViewError.Forbidden, scenarioDStore) :=
  (scoped_delete_respects_claims scenarioCGrants configmapsGR "consumer-ns-1"
    "confmap1" scenarioDStore { name := "confmap1", ns := "consumer-ns-1" }
    (by rfl) (by decide)).1

/-- C6: both the empty string and the literal star act as the wildcard token:
any accepted claim carrying a selector whose two fields are each empty or
star matches every object of its group-resource, and in particular the grant
with selector name empty and namespace consumer-ns-1 lets the scoped view
create a configmap of any name in consumer-ns-1. -/
theorem wildcard_selector_universal_match
    (grants : List AcceptedClaim) (g : AcceptedClaim) (s : ClaimSelector)
    (c : Candidate)
    (hg : g ∈ grants) (hst : g.state = ClaimState.Accepted)
    (hs : s ∈ g.claim.selectors)
    (hn : s.name = "" ∨ s.name = "*") (hw : s.ns = "" ∨ s.ns = "*")
    (hgr : g.claim.groupResource = c.groupResource) :
    Matches c grants = true
    ∧ ∀ (objName : String) (store : Store),
        (enforcedCreate emptyNameNs1Grants configmapsGR
            { name := objName, ns := "consumer-ns-1" } store).1 = Except.ok () := by
  constructor
  · refine (matches_characterisation c grants).mpr ⟨g, hg, hst, hgr, Or.inr ⟨s, hs, ?_, ?_⟩⟩
    · rcases hn with h | h
      · exact Or.inl h
      · exact Or.inr (Or.inl h)
    · rcases hw with h | h
      · exact Or.inl h
      · exact Or.inr (Or.inl h)
  · intro objName store
    have h : Matches
        (candidateOf configmapsGR { name := objName, ns := "consumer-ns-1" })
        emptyNameNs1Grants = true := by
      simp [Matches, claimMatches, selectorMatches, fieldMatches,
        emptyNameNs1Grants, candidateOf]
    simp [enforcedCreate, h]

/-- Witness for C6 at the star-star selector grant and a concrete
candidate. -/
theorem wildcard_selector_universal_match_witness :
    Matches { name := "anyname", ns := "anyns", groupResource := configmapsGR }
        starStarGrants = true
    ∧ ∀ (objName : String) (store : Store),
        (enforcedCreate emptyNameNs1Grants configmapsGR
            { name := objName, ns := "consumer-ns-1" } store).1 = Except.ok () :=
  wildcard_selector_universal_match starStarGrants
    { claim := { groupResource := configmapsGR, all := false,
                 selectors := [{ name := "*", ns := "*" }] },
      state := ClaimState.Accepted }
    { name := "*", ns := "*" }
    { name := "anyname", ns := "anyns", groupResource := configmapsGR }
    (List.mem_singleton.mpr rfl) rfl (List.mem_singleton.mpr rfl)
    (Or.inr rfl) (Or.inr rfl) rfl

end KcpClaims

namespace KcpOptions

/-- `checkSet` behaves like `firstDup` on the names of the set, extending the
seen-set with the set's names (most recent first) on success. -/
theorem checkSet_eq_firstDup (s : List NamedVirtualWorkspace) : ∀ seen,
    checkSet seen s =
      match firstDup seen (s.map (fun vw => vw.Name)) with
      | some n => Except.error (dupMsg n)
      | none => Except.ok ((s.map (fun vw => vw.Name)).reverse ++ seen) := by
  induction s with
  | nil =>
    intro seen
    rfl
  | cons vw rest ih =>
    intro seen
    show (if seen.contains vw.Name then Except.error (dupMsg vw.Name)
          else checkSet (vw.Name :: seen) rest) = _
    by_cases h : seen.contains vw.Name
    · rw [if_pos h]
      show _ = (match (if seen.contains vw.Name then some vw.Name
          else firstDup (vw.Name :: seen) (rest.map (fun vw => vw.Name))) with
        | some n => Except.error (dupMsg n)
        | none => Except.ok (((vw :: rest).map (fun vw => vw.Name)).reverse ++ seen))
      rw [if_pos h]
    · rw [if_neg h]
      show _ = (match (if seen.contains vw.Name then some vw.Name
          else firstDup (vw.Name :: seen) (rest.map (fun vw => vw.Name))) with
        | some n => Except.error (dupMsg n)
        | none => Except.ok (((vw :: rest).map (fun vw => vw.Name)).reverse ++ seen))
      rw [if_neg h, ih]
      cases firstDup (vw.Name :: seen) (rest.map (fun vw => vw.Name)) with
      | some n => rfl
      | none => simp

/-- `firstDup` over a concatenation scans the first list, then the second
with the first list's names added to the seen-set. -/
theorem firstDup_append (l1 : List String) : ∀ seen l2,
    firstDup seen (l1 ++ l2) =
      match firstDup seen l1 with
      | some n => some n
      | none => firstDup (l1.reverse ++ seen) l2 := by
  induction l1 with
  | nil =>
    intro seen l2
    rfl
  | cons n rest ih =>
    intro seen l2
    show (if seen.contains n then some n
          else firstDup (n :: seen) (rest ++ l2)) = _
    by_cases h : seen.contains n
    · rw [if_pos h]
      show _ = (match (if seen.contains n then some n
          else firstDup (n :: seen) rest) with
        | some m => some m
        | none => firstDup ((n :: rest).reverse ++ seen) l2)
      rw [if_pos h]
    · rw [if_neg h]
      show _ = (match (if seen.contains n then some n
          else firstDup (n :: seen) rest) with
        | some m => some m
        | none => firstDup ((n :: rest).reverse ++ seen) l2)
      rw [if_neg h, ih]
      cases firstDup (n :: seen) rest with
      | some m => rfl
      | none =>
        show firstDup (rest.reverse ++ (n :: seen)) l2
          = firstDup ((n :: rest).reverse ++ seen) l2
        rw [List.reverse_cons, List.append_assoc]
        rfl

/-- `mergeGo` refines `firstDup` over the flattened name list: it fails with
the duplicate-name message exactly when `firstDup` reports a duplicate, and
otherwise returns the accumulator followed by the concatenation of the
sets. -/
theorem mergeGo_eq_firstDup (sets : List (List NamedVirtualWorkspace)) :
    ∀ ws seen,
    mergeGo ws seen sets =
      match firstDup seen (sets.flatten.map (fun vw => vw.Name)) with
      | some n => Except.error (dupMsg n)
      | none => Except.ok (ws ++ sets.flatten) := by
  induction sets with
  | nil =>
    intro ws seen
    show Except.ok ws = Except.ok (ws ++ ([] : List NamedVirtualWorkspace))
    rw [List.append_nil]
  | cons s rest ih =>
    intro ws seen
    show (match checkSet seen s with
      | Except.error e => Except.error e
      | Except.ok seen2 => mergeGo (ws ++ s) seen2 rest) = _
    rw [checkSet_eq_firstDup]
    have happ : firstDup seen ((s :: rest).flatten.map (fun vw => vw.Name))
        = match firstDup seen (s.map (fun vw => vw.Name)) with
          | some n => some n
          | none => firstDup ((s.map (fun vw => vw.Name)).reverse ++ seen)
              (rest.flatten.map (fun vw => vw.Name)) := by
      have hsplit : (s :: rest).flatten.map (fun vw => vw.Name)
          = s.map (fun vw => vw.Name) ++ rest.flatten.map (fun vw => vw.Name) := by
        simp
      rw [hsplit, firstDup_append]
    rw [happ]
    cases firstDup seen (s.map (fun vw => vw.Name)) with
    | some n => rfl
    | none =>
      dsimp only
      rw [ih]
      cases firstDup ((s.map (fun vw => vw.Name)).reverse ++ seen)
          (rest.flatten.map (fun vw => vw.Name)) with
      | some n => rfl
      | none =>
        show Except.ok ((ws ++ s) ++ rest.flatten)
          = Except.ok (ws ++ (s :: rest).flatten)
        rw [List.flatten_cons, List.append_assoc]

/-- `Merge` refines `firstDup` over the full traversal-order name list. -/
theorem merge_eq_firstDup (sets : List (List NamedVirtualWorkspace)) :
    Merge sets =
      match firstDup [] (workspaceNames sets) with
      | some n => Except.error (dupMsg n)
      | none => Except.ok sets.flatten := by
  show mergeGo [] [] sets = _
  rw [mergeGo_eq_firstDup]
  cases hfd : firstDup [] (sets.flatten.map (fun vw => vw.Name)) with
  | some n =>
    have h2 : firstDup [] (workspaceNames sets) = some n := hfd
    rw [h2]
  | none =>
    have h2 : firstDup [] (workspaceNames sets) = none := hfd
    rw [h2]
    show Except.ok (([] : List NamedVirtualWorkspace) ++ sets.flatten) = _
    rw [List.nil_append]

/-- `firstDup` finds nothing exactly when the list has no duplicate and is
disjoint from the seen-set. -/
theorem firstDup_eq_none_iff (l : List String) : ∀ seen,
    firstDup seen l = none ↔ l.Nodup ∧ ∀ n ∈ seen, n ∉ l := by
  induction l with
  | nil =>
    intro seen
    simp [firstDup]
  | cons n rest ih =>
    intro seen
    show (if seen.contains n then some n
          else firstDup (n :: seen) rest) = none ↔ _
    by_cases h : seen.contains n
    · rw [if_pos h]
      have hmem : n ∈ seen := by simpa using h
      constructor
      · intro hc
        cases hc
      · rintro ⟨_, hfor⟩
        exact absurd (List.mem_cons_self n rest) (hfor n hmem)
    · rw [if_neg h]
      have hnmem : n ∉ seen := by simpa using h
      rw [ih]
      constructor
      · rintro ⟨hnd, hall⟩
        have hn : n ∉ rest := hall n (List.mem_cons_self n seen)
        refine ⟨List.nodup_cons.mpr ⟨hn, hnd⟩, ?_⟩
        intro m hm
        have hmr : m ∉ rest := hall m (List.mem_cons_of_mem n hm)
        have hmn : m ≠ n := fun he => hnmem (he ▸ hm)
        simp [List.mem_cons, hmn, hmr]
      · rintro ⟨hnd, hall⟩
        obtain ⟨hn, hrest⟩ := List.nodup_cons.mp hnd
        refine ⟨hrest, ?_⟩
        intro m hm
        rcases List.mem_cons.mp hm with he | hm2
        · subst he
          exact hn
        · intro hmr
          exact (hall m hm2) (List.mem_cons_of_mem n hmr)

/-- When `firstDup` reports a name, that name is either shared with the
seen-set or occurs at least twice in the list. -/
theorem firstDup_some_count (l : List String) : ∀ seen n,
    firstDup seen l = some n → (n ∈ seen ∧ n ∈ l) ∨ 2 ≤ l.count n := by
  induction l with
  | nil =>
    intro seen n h
    cases h
  | cons m rest ih =>
    intro seen n h
    rw [show firstDup seen (m :: rest)
        = (if seen.contains m then some m else firstDup (m :: seen) rest)
      from rfl] at h
    by_cases hc : seen.contains m
    · rw [if_pos hc] at h
      injection h with he
      subst he
      exact Or.inl ⟨by simpa using hc, List.mem_cons_self _ _⟩
    · rw [if_neg hc] at h
      rcases ih (m :: seen) n h with ⟨hseen, hrest⟩ | hcount
      · rcases List.mem_cons.mp hseen with he | hs
        · subst he
          right
          have h1 : 0 < rest.count n := List.count_pos_iff.mpr hrest
          have h2 : (n :: rest).count n = rest.count n + 1 :=
            List.count_cons_self n rest
          omega
        · exact Or.inl ⟨hs, List.mem_cons_of_mem m hrest⟩
      · right
        have h2 : rest.count n ≤ (m :: rest).count n := by
          rw [List.count_cons]
          omega
        omega

/-- C7: merging named virtual-workspace sets succeeds exactly when the names
across and within all input sets are pairwise distinct, and a failure is an
error identifying a name that really occurs at least twice, produced at
construction time with no composed workspace list. -/
theorem merge_duplicate_name_detection (sets : List (List NamedVirtualWorkspace)) :
    ((∃ out, Merge sets = Except.ok out) ↔ (workspaceNames sets).Nodup)
    ∧ ∀ e, Merge sets = Except.error e →
        ∃ n, e = dupMsg n ∧ 2 ≤ (workspaceNames sets).count n := by
  have hM := merge_eq_firstDup sets
  constructor
  · cases hfd : firstDup [] (workspaceNames sets) with
    | some n =>
      rw [hfd] at hM
      constructor
      · rintro ⟨out, hout⟩
        rw [hM] at hout
        cases hout
      · intro hnd
        have hnone : firstDup [] (workspaceNames sets) = none :=
          (firstDup_eq_none_iff (workspaceNames sets) []).mpr ⟨hnd, by simp⟩
        rw [hfd] at hnone
        cases hnone
    | none =>
      rw [hfd] at hM
      constructor
      · intro _
        exact ((firstDup_eq_none_iff (workspaceNames sets) []).mp hfd).1
      · intro _
        exact ⟨sets.flatten, hM⟩
  · intro e he
    rw [hM] at he
    cases hfd : firstDup [] (workspaceNames sets) with
    | none =>
      rw [hfd] at he
      cases he
    | some n =>
      rw [hfd] at he
      injection he with he2
      refine ⟨n, he2.symm, ?_⟩
      rcases firstDup_some_count (workspaceNames sets) [] n hfd
        with ⟨hseen, _⟩ | hcount
      · cases hseen
      · exact hcount

/-- Witness for C7: two singleton sets that both name the apiexport workspace
fail the merge with the duplicate-name error, and that name really occurs
twice. -/
theorem merge_duplicate_name_detection_witness :
    ∃ n, "duplicate virtual workspace \"apiexport\"" = dupMsg n
      ∧ 2 ≤ (workspaceNames
          [[{ Name := "apiexport", workspace := 0 }],
           [{ Name := "apiexport", workspace := 1 }]]).count n :=
  (merge_duplicate_name_detection
      [[{ Name := "apiexport", workspace := 0 }],
       [{ Name := "apiexport", workspace := 1 }]]).2
    "duplicate virtual workspace \"apiexport\"" (by rfl)

/-- C9: when `Merge` succeeds, its result is exactly the concatenation of the
input sets in input order (so the order of entries within each set is
preserved) and all names in the result are pairwise distinct; in the error
case it carries no list at all, so a partial concatenation is never
returned. -/
theorem merge_ok_exact_concatenation (sets : List (List NamedVirtualWorkspace))
    (out : List NamedVirtualWorkspace) (h : Merge sets = Except.ok out) :
    out = sets.flatten ∧ (out.map (fun vw => vw.Name)).Nodup := by
  have hM := merge_eq_firstDup sets
  cases hfd : firstDup [] (workspaceNames sets) with
  | some n =>
    rw [hfd] at hM
    rw [hM] at h
    cases h
  | none =>
    rw [hfd] at hM
    rw [hM] at h
    injection h with h2
    subst h2
    exact ⟨rfl, ((firstDup_eq_none_iff (workspaceNames sets) []).mp hfd).1⟩

/-- Witness for C9 at two distinct-name singleton sets. -/
theorem merge_ok_exact_concatenation_witness :
    ([{ Name := "apiexport", workspace := 0 }, { Name := "syncer", workspace := 1 }]
        : List NamedVirtualWorkspace)
      = ([[{ Name := "apiexport", workspace := 0 }],
          [{ Name := "syncer", workspace := 1 }]]
        : List (List NamedVirtualWorkspace)).flatten
    ∧ ((([{ Name := "apiexport", workspace := 0 }, { Name := "syncer", workspace := 1 }]
        : List NamedVirtualWorkspace)).map (fun vw => vw.Name)).Nodup :=
  merge_ok_exact_concatenation
    [[{ Name := "apiexport", workspace := 0 }],
     [{ Name := "syncer", workspace := 1 }]]
    [{ Name := "apiexport", workspace := 0 }, { Name := "syncer", workspace := 1 }]
    (by rfl)

/-- C10: the admission wiring of `NewOptions` puts the virtual apiexport
admission plugin first in the recommended order, followed by exactly the
default registered plugins, disables exactly those default plugins, and hence
leaves only the virtual apiexport plugin enabled. -/
theorem newOptions_admission_wiring (vp : String) (dps : List String)
    (h : vp ∉ dps) :
    (newOptionsAdmission vp dps).RecommendedPluginOrder = vp :: dps
    ∧ (newOptionsAdmission vp dps).DisablePlugins = dps
    ∧ enabledPlugins (newOptionsAdmission vp dps) = [vp] := by
  refine ⟨rfl, rfl, ?_⟩
  show (vp :: dps).filter (fun p => !(dps.contains p)) = [vp]
  rw [List.filter_cons_of_pos (by simpa using h)]
  have hnil : dps.filter (fun p => !(dps.contains p)) = [] := by
    rw [List.filter_eq_nil_iff]
    intro a ha
    simp [ha]
  rw [hnil]

/-- Witness for C10 at the virtual apiexport plugin and the three default
kube admission plugins named in the source comment. -/
theorem newOptions_admission_wiring_witness :
    (newOptionsAdmission "apiexport.virtual.kcp.io"
        ["NamespaceLifecycle", "MutatingAdmissionWebhook",
         "ValidatingAdmissionWebhook"]).RecommendedPluginOrder
      = "apiexport.virtual.kcp.io"
        :: ["NamespaceLifecycle", "MutatingAdmissionWebhook",
            "ValidatingAdmissionWebhook"]
    ∧ (newOptionsAdmission "apiexport.virtual.kcp.io"
        ["NamespaceLifecycle", "MutatingAdmissionWebhook",
         "ValidatingAdmissionWebhook"]).DisablePlugins
      = ["NamespaceLifecycle", "MutatingAdmissionWebhook",
         "ValidatingAdmissionWebhook"]
    ∧ enabledPlugins (newOptionsAdmission "apiexport.virtual.kcp.io"
        ["NamespaceLifecycle", "MutatingAdmissionWebhook",
         "ValidatingAdmissionWebhook"])
      = ["apiexport.virtual.kcp.io"] :=
  newOptions_admission_wiring "apiexport.virtual.kcp.io"
    ["NamespaceLifecycle", "MutatingAdmissionWebhook",
     "ValidatingAdmissionWebhook"]
    (by decide)

end KcpOptions
